import Mathlib

/-!
Shallow embedding of the `ygg-stremio-ad` stream pipeline.

The embedding covers:
* the SQLite-backed stream cache (`getCachedStream` / `storeStream` from the
  db utility module), including SQLite's `NULL` comparison semantics
  (`season = NULL` never holds) and the `INSERT OR REPLACE` uniqueness rule
  (two `NULL`s are distinct, so a `NULL`-keyed insert never replaces);
* the stream route handler of `src/routes/stream.js`: id parsing, the initial
  cache check, TMDB lookup, the two concurrent source searches, bucket
  merging, the episode-title filter, truncation to `2 * FILES_TO_SHOW`,
  hash resolution, upload, and the unlock-and-cache loop.

JavaScript strings are modelled by Lean `String`; `toLowerCase`, `includes`,
`padStart(2, '0')` and `split(':')` are re-implemented structurally below so
that every definition reduces in the kernel.  External adapters are an
`Oracle` of pure functions; the run is instrumented with adapter-call
counters and the list of keys written by the per-file cache writes.
Exceptions escaping the handler (a `TypeError` on a null `season`, or a
rejected cache promise) are an explicit `crash` result.
-/

/-- ASCII lower-casing of one character, as JavaScript `toLowerCase` acts on
the ASCII range (the only range exercised by the pipeline's patterns). -/
def lowerChar (c : Char) : Char :=
  if 65 ≤ c.toNat ∧ c.toNat ≤ 90 then Char.ofNat (c.toNat + 32) else c

/-- Decimal-digit test, `[0-9]` of the JavaScript regexes. -/
def isDigitC (c : Char) : Bool :=
  48 ≤ c.toNat && c.toNat ≤ 57

/-- JavaScript `s.toLowerCase()` on ASCII data. -/
def jsToLower (s : String) : String :=
  String.mk (s.data.map lowerChar)

/-- Does `hay` start with `pat`? (helper for substring search). -/
def listStartsWith : List Char → List Char → Bool
  | _, [] => true
  | [], _ :: _ => false
  | c :: cs, d :: ds => c == d && listStartsWith cs ds

/-- Does `hay` contain `pat` as a contiguous run? (JavaScript `includes`). -/
def listHasSub : List Char → List Char → Bool
  | [], pat => pat.isEmpty
  | c :: cs, pat => listStartsWith (c :: cs) pat || listHasSub cs pat

/-- JavaScript `hay.includes(pat)`. -/
def strHasSub (hay pat : String) : Bool :=
  listHasSub hay.data pat.data

/-- JavaScript `s.padStart(2, '0')`: left-pad with zeros up to length two,
longer strings pass through unchanged. -/
def padTwo (s : String) : String :=
  if 2 ≤ s.length then s else String.mk (List.replicate (2 - s.length) '0' ++ s.data)

/-- JavaScript `id.split(':')` (single-character separator), accumulator
form. -/
def splitAux : List Char → List Char → List String
  | [], acc => [String.mk acc.reverse]
  | c :: cs, acc =>
    if c == ':' then String.mk acc.reverse :: splitAux cs [] else splitAux cs (c :: acc)

/-- `id.split(':')` of the route handler. -/
def splitParts (id : String) : List String :=
  splitAux id.data []

/-- `parts[i] || null`: an absent or empty segment becomes `null`. -/
def partOrNull (ps : List String) (i : Nat) : Option String :=
  match ps.get? i with
  | some s => if s = "" then none else some s
  | none => none

/-- A string made of exactly two decimal digits (the shape of a capture of
the `(\d-2-times)` groups of the filename regex). -/
def twoDigitB (s : String) : Bool :=
  s.length == 2 && s.data.all isDigitC

/-! ## Data model (types of the values flowing through the pipeline) -/

/-- The stream objects returned to the caller and stored in the cache. -/
structure StreamEntry where
  name : String
  title : String
  url : String
deriving DecidableEq, Repr

/-- One torrent result as produced by a search adapter. -/
structure Torrent where
  id : String
  title : String
  hash : Option String
  source : Option String
deriving DecidableEq, Repr

/-- The four granularity buckets a source adapter returns. -/
structure SearchResults where
  movieTorrents : List Torrent
  completeSeriesTorrents : List Torrent
  completeSeasonTorrents : List Torrent
  episodeTorrents : List Torrent
deriving DecidableEq, Repr

/-- TMDB metadata for the requested imdb id. -/
structure TmdbData where
  title : String
  mediaType : String
  frenchTitle : Option String
deriving DecidableEq, Repr

/-- A magnet candidate entering the upload step. -/
structure Magnet where
  hash : String
  title : String
  source : String
deriving DecidableEq, Repr

/-- One entry of the upload-status batch returned by the debrid adapter. -/
structure UploadStatus where
  id : String
  hash : String
  name : String
  source : String
  ready : String
deriving DecidableEq, Repr

/-- One video file listed inside an uploaded torrent. -/
structure VideoFile where
  name : String
  link : String
  size : Nat
deriving DecidableEq, Repr

/-- Display metadata parsed from a filename by the helpers module. -/
structure FileMeta where
  resolution : String
  codec : String
  source : String
deriving DecidableEq, Repr

/-- The slice of the decoded configuration the stream route reads. -/
structure Config where
  FILES_TO_SHOW : Nat
deriving DecidableEq, Repr

/-- One incoming stream request: route params plus the outcome of
`getConfig` (`none` models a configuration that fails to parse). -/
structure Request where
  mediaType : String
  id : String
  config : Option Config
deriving DecidableEq, Repr

/-! ## Cache store (the db utility module) -/

/-- What a `streams_json` column can hold: the serialization of a stream
list (always produced by `storeStream`'s `JSON.stringify`), or text that
does not decode (`JSON.parse` throws on it / an empty falsy string). -/
inductive Blob where
  | json (streams : List StreamEntry)
  | corrupt (raw : String)
deriving DecidableEq, Repr

/-- One row of `streams_cache`; `none` is SQL `NULL`. -/
structure Row where
  imdb_id : String
  season : Option String
  episode : Option String
  blob : Blob
deriving DecidableEq, Repr

/-- The database: rows in rowid order, plus flags injecting an sqlite error
into the next read or write (the `err` callbacks of the module). -/
structure Store where
  rows : List Row
  readFail : Bool
  writeFail : Bool
deriving DecidableEq, Repr

/-- A rejected promise from the db module. -/
inductive CacheError where
  | dbError
deriving DecidableEq, Repr

/-- The empty database. -/
def emptyStore : Store := ⟨[], false, false⟩

/-- SQL `a = b` under three-valued logic, as a Bool: `NULL = x` is never
true. -/
def sqlEq : Option String → Option String → Bool
  | some a, some b => a == b
  | _, _ => false

/-- The `WHERE imdb_id = ? AND season = ? AND episode = ?` test of
`getCachedStream` (also the uniqueness-conflict test of
`INSERT OR REPLACE`: SQLite treats two `NULL`s as distinct, which is
exactly `sqlEq none none = false`). -/
def rowMatches (imdbId : String) (season episode : Option String) (r : Row) : Bool :=
  imdbId == r.imdb_id && sqlEq season r.season && sqlEq episode r.episode

/-- `getCachedStream(imdbId, season, episode)` of the db module: a db error
rejects; a matched row is `JSON.parse`d, a parse failure (or falsy column)
resolves `null`; no row resolves `null`. -/
def getCachedStream (st : Store) (imdbId : String) (season episode : Option String) :
    Except CacheError (Option (List StreamEntry)) :=
  if st.readFail then .error .dbError
  else
    match st.rows.find? (rowMatches imdbId season episode) with
    | none => .ok none
    | some r =>
      match r.blob with
      | .json s => .ok (some s)
      | .corrupt _ => .ok none

/-- `storeStream(imdbId, season, episode, streams)`: `INSERT OR REPLACE`
deletes every row conflicting on the primary key (under SQLite's
NULLs-are-distinct uniqueness rule) and appends the fresh row. -/
def storeStream (st : Store) (imdbId : String) (season episode : Option String)
    (streams : List StreamEntry) : Except CacheError Store :=
  if st.writeFail then .error .dbError
  else
    .ok { st with rows :=
      st.rows.filter (fun r => !(rowMatches imdbId season episode r)) ++
        [⟨imdbId, season, episode, .json streams⟩] }

/-! ## Episode pattern matching (route lines 116-124 and 191-195) -/

/-- The boolean body of the `filteredEpisodeTorrents` callback, for non-null
season and episode: lowercase the title and test the two substring
patterns built from the zero-padded season/episode. -/
def epMatches (s e title : String) : Bool :=
  let tl := jsToLower title
  strHasSub tl ("s" ++ padTwo s ++ "e" ++ padTwo e) ||
    strHasSub tl ("s" ++ padTwo s ++ ".e" ++ padTwo e)

/-- An exception escaping the route handler. -/
inductive JsError where
  | typeError
  | cacheRejection
deriving DecidableEq, Repr

/-- `episodeTorrents.filter(...)` of the route: the callback dereferences
`season.padStart` and `episode.padStart`, so the first invocation with a
null season or episode throws a `TypeError`; with an empty input list the
callback never runs. -/
def filterEpisodesE (season episode : Option String) :
    List Torrent → Except JsError (List Torrent)
  | [] => .ok []
  | t :: ts =>
    match season with
    | none => .error .typeError
    | some s =>
      match episode with
      | none => .error .typeError
      | some e =>
        match filterEpisodesE season episode ts with
        | .error err => .error err
        | .ok rest => .ok (if epMatches s e t.title then t :: rest else rest)

/-- One attempt of `/s(\d-2-times)e(\d-2-times)/i` at the head of the
character list: on success, the two two-digit captures. -/
def tryMatchAt : List Char → Option (String × String)
  | c0 :: c1 :: c2 :: c3 :: c4 :: c5 :: _ =>
    if lowerChar c0 == 's' && isDigitC c1 && isDigitC c2 &&
        lowerChar c3 == 'e' && isDigitC c4 && isDigitC c5
    then some (String.mk [c1, c2], String.mk [c4, c5])
    else none
  | _ => none

/-- Leftmost match of the episode regex `fileName.match(/s..e../i)`. -/
def matchEpisodeRegex : List Char → Option (String × String)
  | [] => none
  | c :: cs =>
    match tryMatchAt (c :: cs) with
    | some r => some r
    | none => matchEpisodeRegex cs

example : matchEpisodeRegex "show.S01E02.mkv".data = some ("01", "02") := by decide
example : padTwo "1" = "01" := by decide
example : epMatches "1" "2" "Show S01.E02 VOSTFR" = true := by decide
example : splitParts "tt1:1:2" = ["tt1", "1", "2"] := by decide
example : splitParts "tt1" = ["tt1"] := by decide

/-! ## External adapters and run instrumentation -/

/-- The external collaborators the route awaits, as pure response maps; a
fixed `Oracle` models "the adapters return the same responses". -/
structure Oracle where
  tmdb : Option TmdbData
  yggResults : SearchResults
  sharewoodResults : SearchResults
  hashFromYgg : String → Option String
  uploadMagnets : List Magnet → List UploadStatus
  filesFromMagnetId : String → String → List VideoFile
  unlockFileLink : String → Option String
  parseFileName : String → FileMeta
  formatSize : Nat → String

/-- Counters of external-adapter calls performed by one run. -/
structure Calls where
  tmdbCalls : Nat
  searchCalls : Nat
  hashCalls : Nat
  uploadCalls : Nat
  fileListCalls : Nat
  unlockCalls : Nat
deriving DecidableEq, Repr

def Calls.zero : Calls := ⟨0, 0, 0, 0, 0, 0⟩

/-- State threaded through one run: the database, the adapter-call
counters, and (instrumentation) the keys written by per-file
`storeStream` calls inside the unlock loop. -/
structure RunState where
  store : Store
  calls : Calls
  perFileKeys : List (String × Option String × Option String)
deriving Repr

/-- The state a fresh process handles its first request in. -/
def initState : RunState := ⟨emptyStore, Calls.zero, []⟩

def bumpTmdb (st : RunState) : RunState :=
  { st with calls := { st.calls with tmdbCalls := st.calls.tmdbCalls + 1 } }

def bumpSearch (st : RunState) : RunState :=
  { st with calls := { st.calls with searchCalls := st.calls.searchCalls + 2 } }

def bumpHash (n : Nat) (st : RunState) : RunState :=
  { st with calls := { st.calls with hashCalls := st.calls.hashCalls + n } }

def bumpUpload (st : RunState) : RunState :=
  { st with calls := { st.calls with uploadCalls := st.calls.uploadCalls + 1 } }

def bumpFileList (st : RunState) : RunState :=
  { st with calls := { st.calls with fileListCalls := st.calls.fileListCalls + 1 } }

def bumpUnlock (st : RunState) : RunState :=
  { st with calls := { st.calls with unlockCalls := st.calls.unlockCalls + 1 } }

/-- What the route sends back: a 400 on a config parse failure, a
`res.json` stream list, or an exception escaping the async handler. -/
inductive HandlerResult where
  | badRequest
  | ok (streams : List StreamEntry)
  | crash (e : JsError)
deriving DecidableEq, Repr

/-! ## Pipeline stages of the route handler -/

/-- `const imdbId = parts[0]` for a request id. -/
def reqImdb (id : String) : String := (splitParts id).headD ""

/-- `const season = parts[1] || null`. -/
def reqSeason (id : String) : Option String := partOrNull (splitParts id) 1

/-- `const episode = parts[2] || null`. -/
def reqEpisode (id : String) : Option String := partOrNull (splitParts id) 2

/-- Lines 74-92: concatenate the two sources bucket by bucket, ygg first. -/
def combineResults (ygg sw : SearchResults) : SearchResults where
  movieTorrents := ygg.movieTorrents ++ sw.movieTorrents
  completeSeriesTorrents := ygg.completeSeriesTorrents ++ sw.completeSeriesTorrents
  completeSeasonTorrents := ygg.completeSeasonTorrents ++ sw.completeSeasonTorrents
  episodeTorrents := ygg.episodeTorrents ++ sw.episodeTorrents

/-- Lines 97-102: every bucket length is zero. -/
def allEmptyB (c : SearchResults) : Bool :=
  c.completeSeriesTorrents.isEmpty && c.completeSeasonTorrents.isEmpty &&
    c.episodeTorrents.isEmpty && c.movieTorrents.isEmpty

/-- Lines 108-131: build `allTorrents` from the combined buckets; for a
series request the episode bucket is filtered first (which can throw on a
null season/episode); any other type leaves the list empty. -/
def buildAllTorrents (mediaType : String) (season episode : Option String)
    (c : SearchResults) : Except JsError (List Torrent) :=
  if mediaType == "series" then
    match filterEpisodesE season episode c.episodeTorrents with
    | .error e => .error e
    | .ok filtered =>
      .ok (c.completeSeriesTorrents ++ c.completeSeasonTorrents ++ filtered)
  else if mediaType == "movie" then
    .ok c.movieTorrents
  else
    .ok []

/-- Lines 138-151, the hash-resolution loop: keep a present hash, otherwise
ask the ygg hash adapter by source id and drop the torrent when that
fails.  Returns the magnets in order plus (instrumentation) the list of ids
the adapter was queried with. -/
def resolveHashes (o : Oracle) : List Torrent → List Magnet × List String
  | [] => ([], [])
  | t :: ts =>
    match t.hash with
    | some h =>
      let (ms, qs) := resolveHashes o ts
      (⟨h, t.title, t.source.getD "Unknown"⟩ :: ms, qs)
    | none =>
      let (ms, qs) := resolveHashes o ts
      match o.hashFromYgg t.id with
      | some h => (⟨h, t.title, t.source.getD "Unknown"⟩ :: ms, t.id :: qs)
      | none => (ms, t.id :: qs)

/-- The StreamEntry built at lines 206-210 / 234-238. -/
def mkStreamEntry (o : Oracle) (torrentSource tmdbTitle : String) (file : VideoFile)
    (url : String) : StreamEntry :=
  let meta := o.parseFileName file.name
  { name := "❤️ " ++ torrentSource ++ " + AD | 🖥️ " ++ meta.resolution ++ " | 🎞️ " ++ meta.codec
    title := tmdbTitle ++ "\n" ++ file.name ++ "\n🎬 " ++ meta.source ++ " | 💾 " ++
      o.formatSize file.size
    url := url }

/-- Is the detected season/episode the requested one
(`detectedSeason === season?.padStart(2,'0') && ...`)? -/
def isRequestedEpisode (season episode : Option String) (ds de : String) : Bool :=
  (match season with | some s => ds == padTwo s | none => false) &&
    (match episode with | some e => de == padTwo e | none => false)

/-- Lines 186-247, the per-file loop over one ready torrent's video files:
regex-detect the episode, consult the per-episode (or per-movie) cache,
unlock and store on a miss, and append to `filteredFiles` when the file is
the requested one and the per-torrent count is still below
`FILES_TO_SHOW`.  A rejected cache promise aborts the whole handler. -/
def processFiles (o : Oracle) (cfg : Config) (mediaType imdbId : String)
    (season episode : Option String) (tmdbTitle torrentSource : String) :
    List VideoFile → List StreamEntry → RunState →
      Except JsError (List StreamEntry) × RunState
  | [], acc, st => (.ok acc, st)
  | file :: rest, acc, st =>
    if mediaType == "series" then
      match matchEpisodeRegex (jsToLower file.name).data with
      | none => processFiles o cfg mediaType imdbId season episode tmdbTitle torrentSource rest acc st
      | some (ds, de) =>
        match getCachedStream st.store imdbId (some ds) (some de) with
        | .error _ => (.error .cacheRejection, st)
        | .ok cached =>
          match cached with
          | some (x :: _) =>
            let acc' := if isRequestedEpisode season episode ds de &&
                decide (acc.length < cfg.FILES_TO_SHOW) then acc ++ [x] else acc
            processFiles o cfg mediaType imdbId season episode tmdbTitle torrentSource rest acc' st
          | _ =>
            let st1 := bumpUnlock st
            match o.unlockFileLink file.link with
            | none => processFiles o cfg mediaType imdbId season episode tmdbTitle torrentSource rest acc st1
            | some url =>
              let sObj := mkStreamEntry o torrentSource tmdbTitle file url
              match storeStream st1.store imdbId (some ds) (some de) [sObj] with
              | .error _ => (.error .cacheRejection, st1)
              | .ok store' =>
                let st2 : RunState :=
                  { st1 with store := store'
                             perFileKeys := st1.perFileKeys ++ [(imdbId, some ds, some de)] }
                let acc' := if isRequestedEpisode season episode ds de &&
                    decide (acc.length < cfg.FILES_TO_SHOW) then acc ++ [sObj] else acc
                processFiles o cfg mediaType imdbId season episode tmdbTitle torrentSource rest acc' st2
    else if mediaType == "movie" then
      match getCachedStream st.store imdbId none none with
      | .error _ => (.error .cacheRejection, st)
      | .ok cached =>
        match cached with
        | some (x :: _) =>
          let acc' := if acc.length < cfg.FILES_TO_SHOW then acc ++ [x] else acc
          processFiles o cfg mediaType imdbId season episode tmdbTitle torrentSource rest acc' st
        | _ =>
          let st1 := bumpUnlock st
          match o.unlockFileLink file.link with
          | none => processFiles o cfg mediaType imdbId season episode tmdbTitle torrentSource rest acc st1
          | some url =>
            let sObj := mkStreamEntry o torrentSource tmdbTitle file url
            match storeStream st1.store imdbId none none [sObj] with
            | .error _ => (.error .cacheRejection, st1)
            | .ok store' =>
              let st2 : RunState :=
                { st1 with store := store'
                           perFileKeys := st1.perFileKeys ++ [(imdbId, none, none)] }
              let acc' := if acc.length < cfg.FILES_TO_SHOW then acc ++ [sObj] else acc
              processFiles o cfg mediaType imdbId season episode tmdbTitle torrentSource rest acc' st2
    else
      processFiles o cfg mediaType imdbId season episode tmdbTitle torrentSource rest acc st

/-- Lines 175-257, `unlockAndAddStreams`: walk the ready torrents, breaking
once `streams.length` reaches `FILES_TO_SHOW`, listing each torrent's
files and appending that torrent's `filteredFiles`. -/
def unlockAndAddStreams (o : Oracle) (cfg : Config) (mediaType imdbId : String)
    (season episode : Option String) (tmdbTitle : String) :
    List UploadStatus → List StreamEntry → RunState →
      Except JsError (List StreamEntry) × RunState
  | [], streams, st => (.ok streams, st)
  | t :: ts, streams, st =>
    if cfg.FILES_TO_SHOW ≤ streams.length then (.ok streams, st)
    else
      let st1 := bumpFileList st
      match processFiles o cfg mediaType imdbId season episode tmdbTitle t.source
          (o.filesFromMagnetId t.id t.source) [] st1 with
      | (.error e, st2) => (.error e, st2)
      | (.ok filteredFiles, st2) =>
        unlockAndAddStreams o cfg mediaType imdbId season episode tmdbTitle ts
          (streams ++ filteredFiles) st2

/-- Lines 161-268: upload the magnets, keep the ready ones, run the unlock
loop, and persist a non-empty result under the raw request key. -/
def afterMagnets (o : Oracle) (req : Request) (cfg : Config) (td : TmdbData)
    (magnets : List Magnet) (st : RunState) : HandlerResult × RunState :=
  let uploaded := o.uploadMagnets magnets
  let ready := uploaded.filter (fun u => u.ready == "✅ Ready")
  match unlockAndAddStreams o cfg req.mediaType (reqImdb req.id) (reqSeason req.id)
      (reqEpisode req.id) td.title ready [] st with
  | (.error e, st2) => (.crash e, st2)
  | (.ok streams, st2) =>
    if streams.isEmpty then (.ok streams, st2)
    else
      match storeStream st2.store (reqImdb req.id) (reqSeason req.id) (reqEpisode req.id)
          streams with
      | .error _ => (.crash .cacheRejection, st2)
      | .ok store2 => (.ok streams, { st2 with store := store2 })

/-- Lines 107-159: build `allTorrents`, truncate to `FILES_TO_SHOW * 2`,
resolve hashes, and short-circuit on an empty magnet list. -/
def afterSearch (o : Oracle) (req : Request) (cfg : Config) (td : TmdbData)
    (st : RunState) : HandlerResult × RunState :=
  let combined := combineResults o.yggResults o.sharewoodResults
  if allEmptyB combined then (.ok [], st)
  else
    match buildAllTorrents req.mediaType (reqSeason req.id) (reqEpisode req.id) combined with
    | .error e => (.crash e, st)
    | .ok allTorrents =>
      let mq := resolveHashes o (allTorrents.take (cfg.FILES_TO_SHOW * 2))
      let st1 := bumpHash mq.2.length st
      if mq.1.isEmpty then (.ok [], st1)
      else afterMagnets o req cfg td mq.1 (bumpUpload st1)

/-- Lines 44-69: TMDB lookup (short-circuit on absence) then the two joined
source searches. -/
def afterCacheMiss (o : Oracle) (req : Request) (cfg : Config) (st : RunState) :
    HandlerResult × RunState :=
  let st1 := bumpTmdb st
  match o.tmdb with
  | none => (.ok [], st1)
  | some td => afterSearch o req cfg td (bumpSearch st1)

/-- The whole route handler of `src/routes/stream.js`: config parsing, id
parsing, the immediate cache check (an array, even empty, is truthy and is
returned as-is), then the pipeline. -/
def handleStream (o : Oracle) (req : Request) (st : RunState) :
    HandlerResult × RunState :=
  match req.config with
  | none => (.badRequest, st)
  | some cfg =>
    match getCachedStream st.store (reqImdb req.id) (reqSeason req.id) (reqEpisode req.id) with
    | .error _ => (.crash .cacheRejection, st)
    | .ok (some cached) => (.ok cached, st)
    | .ok none => afterCacheMiss o req cfg st

/-! ## Generic list lemmas used by the cache-store proofs -/

/-- Searching for `p` after filtering out all `p`-rows finds nothing. -/
theorem find?_self_filter {α : Type} (p : α → Bool) (l : List α) :
    (l.filter fun r => !p r).find? p = none := by
  induction l with
  | nil => rfl
  | cons a l ih =>
    by_cases h : p a = true
    · simp [List.filter_cons, h, ih]
    · simp only [Bool.not_eq_true] at h
      simp [List.filter_cons, h, List.find?_cons, ih]

/-- Filtering out `p`-rows does not change a `q`-search when no row can
satisfy both predicates. -/
theorem find?_filter_keep {α : Type} (p q : α → Bool) (l : List α)
    (h : ∀ r, q r = true → p r = false) :
    (l.filter fun r => !p r).find? q = l.find? q := by
  induction l with
  | nil => rfl
  | cons a l ih =>
    by_cases hp : p a = true
    · have hq : q a = false := by
        by_contra hq
        simp only [Bool.not_eq_false] at hq
        exact absurd (h a hq) (by simp [hp])
      simp [List.filter_cons, hp, List.find?_cons, hq, ih]
    · simp only [Bool.not_eq_true] at hp
      by_cases hq : q a = true
      · simp [List.filter_cons, hp, List.find?_cons, hq]
      · simp only [Bool.not_eq_true] at hq
        simp [List.filter_cons, hp, List.find?_cons, hq, ih]

/-- A `q`-search never succeeds when `q` is everywhere false. -/
theorem find?_eq_none_of_false {α : Type} (q : α → Bool) (l : List α)
    (h : ∀ r, q r = false) : l.find? q = none := by
  induction l with
  | nil => rfl
  | cons a l ih => simp [List.find?_cons, h a, ih]

/-! ## Cache-store facts -/

/-- A query with a SQL `NULL` season or episode matches no row at all. -/
theorem rowMatches_of_null (imdbId : String) (season episode : Option String)
    (r : Row) (h : season = none ∨ episode = none) :
    rowMatches imdbId season episode r = false := by
  rcases h with h | h <;> subst h <;> simp [rowMatches, sqlEq]

/-- Reading any key with a `NULL` component misses, whatever the rows. -/
theorem getCachedStream_null (st : Store) (imdbId : String)
    (season episode : Option String) (hr : st.readFail = false)
    (h : season = none ∨ episode = none) :
    getCachedStream st imdbId season episode = .ok none := by
  simp only [getCachedStream, hr, if_false, Bool.false_eq_true]
  rw [find?_eq_none_of_false _ _ (fun r => rowMatches_of_null imdbId season episode r h)]

/-- Unfolding of a successful `storeStream`. -/
theorem storeStream_ok (st : Store) (imdbId : String) (season episode : Option String)
    (X : List StreamEntry) (st' : Store)
    (hw : storeStream st imdbId season episode X = .ok st') :
    st.writeFail = false ∧
      st' = { st with rows :=
        st.rows.filter (fun r => !(rowMatches imdbId season episode r)) ++
          [⟨imdbId, season, episode, .json X⟩] } := by
  unfold storeStream at hw
  split at hw
  · exact absurd hw (by simp)
  · rename_i hwf
    simp only [Except.ok.injEq] at hw
    exact ⟨by simpa using hwf, hw.symm⟩

/-- `find?` over an append searches the left part first. -/
theorem find?_append_or {α : Type} (p : α → Bool) (l1 l2 : List α) :
    (l1 ++ l2).find? p = (l1.find? p).or (l2.find? p) := by
  induction l1 with
  | nil => simp
  | cons a l ih =>
    by_cases h : p a = true
    · simp [List.find?_cons, h]
    · simp only [Bool.not_eq_true] at h
      simp [List.find?_cons, h, ih]

/-- A non-null SQL equality pins the row value. -/
theorem sqlEq_some_iff (a : String) (x : Option String) :
    sqlEq (some a) x = true ↔ x = some a := by
  cases x with
  | none => simp [sqlEq]
  | some b =>
    simp only [sqlEq, beq_iff_eq, Option.some.injEq]
    exact ⟨fun h => h.symm, fun h => h.symm⟩

/-- A row with exactly the queried non-null key always matches. -/
theorem rowMatches_self (i s e : String) (b : Blob) :
    rowMatches i (some s) (some e) ⟨i, some s, some e, b⟩ = true := by
  simp [rowMatches, sqlEq]

/-- Reading back the key just written (non-null season/episode). -/
theorem getCachedStream_storeStream_same (st st' : Store) (imdbId s e : String)
    (X : List StreamEntry) (hr : st.readFail = false)
    (hw : storeStream st imdbId (some s) (some e) X = .ok st') :
    getCachedStream st' imdbId (some s) (some e) = .ok (some X) := by
  obtain ⟨hwf, hst⟩ := storeStream_ok st imdbId (some s) (some e) X st' hw
  subst hst
  simp only [getCachedStream, hr, Bool.false_eq_true, if_false]
  rw [find?_append_or, find?_self_filter]
  rw [List.find?_cons_of_pos _ (rowMatches_self imdbId s e (.json X))]
  rfl

/-- Writing one non-null key leaves every other lookup unchanged. -/
theorem getCachedStream_storeStream_other (st st' : Store) (imdbId s e : String)
    (X : List StreamEntry) (imdb2 : String) (s2 e2 : Option String)
    (hw : storeStream st imdbId (some s) (some e) X = .ok st')
    (hne : ¬(imdb2 = imdbId ∧ s2 = some s ∧ e2 = some e)) :
    getCachedStream st' imdb2 s2 e2 = getCachedStream st imdb2 s2 e2 := by
  obtain ⟨hwf, hst⟩ := storeStream_ok st imdbId (some s) (some e) X st' hw
  subst hst
  cases hrf : st.readFail with
  | true => simp [getCachedStream, hrf]
  | false =>
    simp only [getCachedStream, hrf, Bool.false_eq_true, if_false]
    have hdisj : ∀ r : Row, rowMatches imdb2 s2 e2 r = true →
        rowMatches imdbId (some s) (some e) r = false := by
      intro r hq
      simp only [rowMatches, Bool.and_eq_true, beq_iff_eq] at hq
      obtain ⟨⟨hi, hs⟩, he⟩ := hq
      rcases s2 with _ | a
      · exact absurd hs (by simp [sqlEq])
      rcases e2 with _ | b
      · exact absurd he (by simp [sqlEq])
      rw [sqlEq_some_iff] at hs he
      by_contra hp
      simp only [Bool.not_eq_false, rowMatches, Bool.and_eq_true, beq_iff_eq,
        sqlEq_some_iff] at hp
      exact hne ⟨hi.trans hp.1.1.symm, hs.symm.trans hp.1.2, he.symm.trans hp.2⟩
    rw [find?_append_or, find?_filter_keep _ _ _ hdisj]
    have hnew : rowMatches imdb2 s2 e2 ⟨imdbId, some s, some e, .json X⟩ = false := by
      by_contra hp
      simp only [Bool.not_eq_false] at hp
      have := hdisj _ hp
      simp [rowMatches, sqlEq] at this
    simp [List.find?_cons, hnew]

/-! ## Claim C9 - cache roundtrip / isolation / replacement -/

/-- C9 counterexample: with a SQL `NULL` season and episode (the movie
key), `storeStream` inserts a row but the immediately following
`getCachedStream` on the very same key reports a miss, because
`season = NULL` never matches; so the claimed universal
store-then-get-returns-X roundtrip is false at this concrete input. -/
theorem C9_counterexample :
    storeStream emptyStore "tt1" none none [⟨"n", "t", "u"⟩] =
      .ok ⟨[⟨"tt1", none, none, .json [⟨"n", "t", "u"⟩]⟩], false, false⟩ ∧
    getCachedStream ⟨[⟨"tt1", none, none, .json [⟨"n", "t", "u"⟩]⟩], false, false⟩
      "tt1" none none = .ok none := by
  exact ⟨rfl, rfl⟩

/-- C9 (amended): for keys whose season and episode are both non-null, a
store followed by a get of the same key returns exactly the stored
sequence, a store leaves every other key's lookup unchanged (so a key
never written on a store grown from empty reads absent), and a second
store on the same key fully replaces the previous sequence.  For a key
with a null season or episode (the movie key), any lookup reports absent
regardless of the rows. -/
theorem C9_cache_roundtrip_amended (st st' : Store) (imdbId s e : String)
    (X : List StreamEntry)
    (hr : st.readFail = false)
    (hw : storeStream st imdbId (some s) (some e) X = .ok st') :
    getCachedStream st' imdbId (some s) (some e) = .ok (some X) ∧
    (∀ imdb2 s2 e2, ¬(imdb2 = imdbId ∧ s2 = some s ∧ e2 = some e) →
      getCachedStream st' imdb2 s2 e2 = getCachedStream st imdb2 s2 e2) ∧
    (∀ imdb2 s2 e2, getCachedStream emptyStore imdb2 s2 e2 = .ok none) ∧
    (∀ Y st2, storeStream st' imdbId (some s) (some e) Y = .ok st2 →
      getCachedStream st2 imdbId (some s) (some e) = .ok (some Y)) ∧
    (∀ se ep, se = none ∨ ep = none → getCachedStream st' imdbId se ep = .ok none) := by
  have hr' : st'.readFail = false := by
    obtain ⟨hwf, hst⟩ := storeStream_ok st imdbId (some s) (some e) X st' hw
    rw [hst]
    exact hr
  refine ⟨getCachedStream_storeStream_same st st' imdbId s e X hr hw,
    fun imdb2 s2 e2 hne =>
      getCachedStream_storeStream_other st st' imdbId s e X imdb2 s2 e2 hw hne,
    fun imdb2 s2 e2 => rfl,
    fun Y st2 hw2 => getCachedStream_storeStream_same st' st2 imdbId s e Y hr' hw2,
    fun se ep hnull => getCachedStream_null st' imdbId se ep hr' hnull⟩

/-- C9 witness: a concrete store-then-get on key `("tt1", "1", "2")`
returns the stored singleton. -/
theorem C9_witness :
    getCachedStream ⟨[⟨"tt1", some "1", some "2", .json [⟨"n", "t", "u"⟩]⟩], false, false⟩
      "tt1" (some "1") (some "2") = .ok (some [⟨"n", "t", "u"⟩]) :=
  (C9_cache_roundtrip_amended emptyStore
    ⟨[⟨"tt1", some "1", some "2", .json [⟨"n", "t", "u"⟩]⟩], false, false⟩
    "tt1" "1" "2" [⟨"n", "t", "u"⟩] rfl rfl).1

/-! ## Claim C4 - error propagation of the cache store -/

/-- C4 counterexample: a store holding exactly one row for the key, whose
`streams_json` text does not decode, makes `getCachedStream` resolve a
plain cache-miss (`null`) instead of surfacing a decode error: the key has
a stored entry, yet the read reports it absent. -/
theorem C4_counterexample :
    (Store.mk [⟨"tt1", some "1", some "2", .corrupt "x"⟩] false false).rows ≠ [] ∧
    getCachedStream ⟨[⟨"tt1", some "1", some "2", .corrupt "x"⟩], false, false⟩
      "tt1" (some "1") (some "2") = .ok none := by
  exact ⟨by simp, rfl⟩

/-- C4 (amended): database-level failures do propagate as distinct errors
(a failing read rejects `getCachedStream`, a failing write rejects
`storeStream`), but a stored entry whose serialized text fails to decode
is silently reported as a cache-miss (`null`), not as an error. -/
theorem C4_cache_errors_amended (st : Store) (imdbId : String)
    (season episode : Option String) (X : List StreamEntry) :
    (st.readFail = true → getCachedStream st imdbId season episode = .error .dbError) ∧
    (st.writeFail = true → storeStream st imdbId season episode X = .error .dbError) ∧
    (∀ raw, st.readFail = false →
      st.rows.find? (rowMatches imdbId season episode) =
        some ⟨imdbId, season, episode, .corrupt raw⟩ →
      getCachedStream st imdbId season episode = .ok none) := by
  refine ⟨fun h => by simp [getCachedStream, h],
    fun h => by simp [storeStream, h],
    fun raw hr hf => ?_⟩
  simp [getCachedStream, hr, hf]

/-- C4 witness: the three amended behaviours at concrete stores. -/
theorem C4_witness :
    getCachedStream ⟨[], true, false⟩ "tt1" none none = .error .dbError ∧
    storeStream ⟨[], false, true⟩ "tt1" none none [] = .error .dbError ∧
    getCachedStream ⟨[⟨"tt1", some "1", some "2", .corrupt "x"⟩], false, false⟩
      "tt1" (some "1") (some "2") = .ok none := by
  refine ⟨(C4_cache_errors_amended ⟨[], true, false⟩ "tt1" none none []).1 rfl,
    (C4_cache_errors_amended ⟨[], false, true⟩ "tt1" none none []).2.1 rfl,
    (C4_cache_errors_amended ⟨[⟨"tt1", some "1", some "2", .corrupt "x"⟩], false, false⟩
      "tt1" (some "1") (some "2") []).2.2 "x" rfl (by decide)⟩

/-! ## Claim C5 - candidate ordering -/

/-- With a non-null season and episode the episode filter never throws and
is a plain `List.filter` with the pattern predicate. -/
theorem filterEpisodesE_some (s e : String) (ts : List Torrent) :
    filterEpisodesE (some s) (some e) ts =
      .ok (ts.filter fun t => epMatches s e t.title) := by
  induction ts with
  | nil => rfl
  | cons t ts ih =>
    simp [filterEpisodesE, ih, List.filter_cons]

/-- C5: for a series request the candidate list handed to truncation is the
complete-series bucket, then the complete-season bucket, then the filtered
episode bucket, each bucket being the ygg items followed by the sharewood
items in their per-source order (the filter distributes over the
concatenation); for a movie request it is exactly the concatenated
movie bucket. -/
theorem C5_candidate_ordering (ygg sw : SearchResults) (s e : String)
    (season2 episode2 : Option String) :
    buildAllTorrents "series" (some s) (some e) (combineResults ygg sw) =
      .ok ((ygg.completeSeriesTorrents ++ sw.completeSeriesTorrents) ++
        ((ygg.completeSeasonTorrents ++ sw.completeSeasonTorrents) ++
          ((ygg.episodeTorrents.filter fun t => epMatches s e t.title) ++
            sw.episodeTorrents.filter fun t => epMatches s e t.title))) ∧
    buildAllTorrents "movie" season2 episode2 (combineResults ygg sw) =
      .ok (ygg.movieTorrents ++ sw.movieTorrents) := by
  constructor
  · simp [buildAllTorrents, combineResults, filterEpisodesE_some, List.filter_append,
      List.append_assoc]
  · rfl

/-! ## Claim C6 - episode filter pattern -/

/-- Lower-casing fixes decimal digits. -/
theorem lowerChar_digit (c : Char) (h : isDigitC c = true) : lowerChar c = c := by
  simp only [isDigitC, Bool.and_eq_true, decide_eq_true_eq] at h
  unfold lowerChar
  rw [if_neg]
  omega

/-- Lower-casing fixes digit strings. -/
theorem map_lowerChar_digits (l : List Char) (h : l.all isDigitC = true) :
    l.map lowerChar = l := by
  induction l with
  | nil => rfl
  | cons c cs ih =>
    simp only [List.all_cons, Bool.and_eq_true] at h
    simp [lowerChar_digit c h.1, ih h.2]

/-- Zero-padding keeps a digit string all-digits. -/
theorem padTwo_digits (s : String) (h : s.data.all isDigitC = true) :
    (padTwo s).data.all isDigitC = true := by
  unfold padTwo
  split
  · exact h
  · simp only [List.all_append, Bool.and_eq_true]
    refine ⟨?_, h⟩
    simp only [List.all_eq_true]
    intro c hc
    rw [List.eq_of_mem_replicate hc]
    decide

/-- String append acts on the character data. -/
theorem data_append (a b : String) : (a ++ b).data = a.data ++ b.data := rfl

/-- The spec's formulation of the episode filter: the title contains, under
case-insensitive comparison, the substring `S<season2>E<episode2>` or
`S<season2>.E<episode2>` with the two numbers zero-padded to two digits. -/
def specEpisodeMatch (s e title : String) : Bool :=
  strHasSub (jsToLower title) (jsToLower ("S" ++ padTwo s ++ "E" ++ padTwo e)) ||
    strHasSub (jsToLower title) (jsToLower ("S" ++ padTwo s ++ ".E" ++ padTwo e))

/-- Lower-casing the spec's uppercase pattern yields the code's literal
lowercase pattern. -/
theorem jsToLower_pattern (s e : String) (hs : s.data.all isDigitC = true)
    (he : e.data.all isDigitC = true) :
    jsToLower ("S" ++ padTwo s ++ "E" ++ padTwo e) =
      "s" ++ padTwo s ++ "e" ++ padTwo e ∧
    jsToLower ("S" ++ padTwo s ++ ".E" ++ padTwo e) =
      "s" ++ padTwo s ++ ".e" ++ padTwo e := by
  have hps := map_lowerChar_digits (padTwo s).data (padTwo_digits s hs)
  have hpe := map_lowerChar_digits (padTwo e).data (padTwo_digits e he)
  have hS : lowerChar 'S' = 's' := by decide
  have hE : lowerChar 'E' = 'e' := by decide
  have hD : lowerChar '.' = '.' := by decide
  constructor <;> apply String.ext <;>
    simp [jsToLower, data_append, List.map_append, hps, hpe, hS, hE, hD,
      List.append_assoc]

/-- C6: a torrent title passes the series episode filter exactly when it
contains, case-insensitively, `S<s2>E<e2>` or `S<s2>.E<e2>` with the
season and episode zero-padded to two digits (season/episode segments
being decimal strings, as in a `imdbId:season:episode` id). -/
theorem C6_episode_filter (s e title : String) (hs : s.data.all isDigitC = true)
    (he : e.data.all isDigitC = true) :
    epMatches s e title = specEpisodeMatch s e title := by
  obtain ⟨h1, h2⟩ := jsToLower_pattern s e hs he
  rw [specEpisodeMatch, h1, h2]
  rfl

/-- C6 witness: the filter and the spec formulation agree on a concrete
title for season 1, episode 2, and both accept it. -/
theorem C6_witness :
    epMatches "1" "2" "Show.S01E02.VOSTFR.mkv" =
      specEpisodeMatch "1" "2" "Show.S01E02.VOSTFR.mkv" :=
  C6_episode_filter "1" "2" "Show.S01E02.VOSTFR.mkv" (by decide) (by decide)

/-! ## Claim C7 - truncation before hash resolution -/

/-- `List.all` is monotone in the predicate. -/
theorem all_mono {α : Type} (p q : α → Bool) (l : List α)
    (h : ∀ a, p a = true → q a = true) (hl : l.all p = true) : l.all q = true := by
  simp only [List.all_eq_true] at hl ⊢
  exact fun a ha => h a (hl a ha)

/-- Hash resolution queries the adapter at most once per input torrent. -/
theorem resolveHashes_queried_length (o : Oracle) (ts : List Torrent) :
    (resolveHashes o ts).2.length ≤ ts.length := by
  induction ts with
  | nil => simp [resolveHashes]
  | cons t ts ih =>
    simp only [resolveHashes]
    cases t.hash with
    | some h => simpa using Nat.le_succ_of_le ih
    | none =>
      cases o.hashFromYgg t.id with
      | some h => simpa using Nat.succ_le_succ ih
      | none => simpa using Nat.succ_le_succ ih

/-- Every id handed to the hash adapter is the id of an input torrent. -/
theorem resolveHashes_queried_sub (o : Oracle) (ts : List Torrent) :
    (resolveHashes o ts).2.all (fun i => (ts.map Torrent.id).contains i) = true := by
  induction ts with
  | nil => simp [resolveHashes]
  | cons t ts ih =>
    have hmono : (resolveHashes o ts).2.all
        (fun i => ((t :: ts).map Torrent.id).contains i) = true := by
      refine all_mono _ _ _ (fun a ha => ?_) ih
      simp only [List.map_cons, List.contains_cons, Bool.or_eq_true]
      exact Or.inr ha
    simp only [resolveHashes]
    cases t.hash with
    | some h => simpa using hmono
    | none =>
      cases o.hashFromYgg t.id with
      | some h2 =>
        simp only [List.all_cons, Bool.and_eq_true]
        exact ⟨by simp [List.contains_cons], hmono⟩
      | none =>
        simp only [List.all_cons, Bool.and_eq_true]
        exact ⟨by simp [List.contains_cons], hmono⟩

/-- C7: the candidate list entering hash resolution is
`allTorrents.take (FILES_TO_SHOW * 2)`, so it has at most
`2 x FILES_TO_SHOW` elements; the hash stage performs at most that many
adapter lookups, and every id it looks up belongs to that truncated
prefix - no lookup is ever made for a candidate beyond it. -/
theorem C7_truncation_before_hashes (o : Oracle) (allTorrents : List Torrent)
    (F : Nat) :
    (allTorrents.take (F * 2)).length ≤ F * 2 ∧
    (resolveHashes o (allTorrents.take (F * 2))).2.length ≤ F * 2 ∧
    (resolveHashes o (allTorrents.take (F * 2))).2.all
      (fun i => ((allTorrents.take (F * 2)).map Torrent.id).contains i) = true := by
  refine ⟨List.length_take_le _ _, ?_, resolveHashes_queried_sub o _⟩
  exact le_trans (resolveHashes_queried_length o _) (List.length_take_le _ _)

/-! ## Claim C3 - structured response for every parsed configuration -/

/-- Adapter responses exhibiting the null-season crash: TMDB resolves, and
one source returns a single episode-bucket torrent. -/
def crashOracle : Oracle where
  tmdb := some ⟨"Show", "series", none⟩
  yggResults := ⟨[], [], [], [⟨"42", "Show S01E01", some "h", some "Ygg"⟩]⟩
  sharewoodResults := ⟨[], [], [], []⟩
  hashFromYgg := fun _ => none
  uploadMagnets := fun _ => []
  filesFromMagnetId := fun _ _ => []
  unlockFileLink := fun _ => none
  parseFileName := fun _ => ⟨"", "", ""⟩
  formatSize := fun _ => ""

/-- C3: the claim fails on the code.  A series request whose id carries no
season/episode segment (`tt0000001`), with a well-parsed configuration and
a recoverable pipeline state (catalog found, one episode-bucket result),
does not produce a structured streams response: the episode filter
callback evaluates `season.padStart` on `null` and the handler dies with a
TypeError.  (Line 216 guards the same access with `season?.`; line 119
does not.) -/
theorem C3_null_season_crash :
    (handleStream crashOracle ⟨"series", "tt0000001", some ⟨2⟩⟩ initState).1 =
      .crash .typeError := by
  rfl

/-! ## Invariants of the unlock loop -/

/-- The per-file loop never flips the db failure flags. -/
theorem processFiles_flags (o : Oracle) (cfg : Config) (mt imdb : String)
    (se ep : Option String) (tt tsrc : String) :
    ∀ (files : List VideoFile) (acc : List StreamEntry) (st : RunState)
      (r : Except JsError (List StreamEntry)) (st' : RunState),
      processFiles o cfg mt imdb se ep tt tsrc files acc st = (r, st') →
      st'.store.readFail = st.store.readFail ∧
        st'.store.writeFail = st.store.writeFail := by
  intro files
  induction files with
  | nil =>
    intro acc st r st' h
    simp only [processFiles, Prod.mk.injEq] at h
    rw [← h.2]
    exact ⟨rfl, rfl⟩
  | cons f rest ih =>
    intro acc st r st' h
    simp only [processFiles] at h
    split at h
    · -- series branch
      split at h
      · exact ih _ _ _ _ h
      · split at h
        · -- cache read rejected
          simp only [Prod.mk.injEq] at h
          rw [← h.2]
          exact ⟨rfl, rfl⟩
        · split at h
          · exact ih _ _ _ _ h
          · split at h
            · have := ih _ _ _ _ h
              simpa [bumpUnlock] using this
            · split at h
              · -- per-file store rejected
                simp only [Prod.mk.injEq] at h
                rw [← h.2]
                exact ⟨rfl, rfl⟩
              · rename_i store' hw
                obtain ⟨hwf, hrec⟩ :=
                  storeStream_ok _ _ _ _ _ _ hw
                have := ih _ _ _ _ h
                rw [hrec] at this
                simpa [bumpUnlock] using this
    · split at h
      · -- movie branch
        split at h
        · simp only [Prod.mk.injEq] at h
          rw [← h.2]
          exact ⟨rfl, rfl⟩
        · split at h
          · exact ih _ _ _ _ h
          · split at h
            · have := ih _ _ _ _ h
              simpa [bumpUnlock] using this
            · split at h
              · simp only [Prod.mk.injEq] at h
                rw [← h.2]
                exact ⟨rfl, rfl⟩
              · rename_i store' hw
                obtain ⟨hwf, hrec⟩ :=
                  storeStream_ok _ _ _ _ _ _ hw
                have := ih _ _ _ _ h
                rw [hrec] at this
                simpa [bumpUnlock] using this
      · exact ih _ _ _ _ h

/-- One guarded push keeps the accumulator under `max acc.length F`. -/
theorem len_push_le (acc : List StreamEntry) (x : StreamEntry) (F : Nat) (c : Prop)
    [Decidable c] (h : c → acc.length < F) :
    (if c then acc ++ [x] else acc).length ≤ max acc.length F := by
  split
  · rename_i hc
    have := h hc
    simp only [List.length_append, List.length_singleton]
    omega
  · omega

/-- One guarded push cannot raise the `max acc.length F` bound. -/
theorem max_push_le (acc : List StreamEntry) (x : StreamEntry) (F : Nat) (c : Prop)
    [Decidable c] (h : c → acc.length < F) :
    max (if c then acc ++ [x] else acc).length F ≤ max acc.length F := by
  split
  · rename_i hc
    have := h hc
    simp only [List.length_append, List.length_singleton]
    omega
  · omega

/-- A torrent's `filteredFiles` never exceeds `FILES_TO_SHOW` entries beyond
the accumulator it started from:
the result is at most `max acc.length FILES_TO_SHOW` long, because every
push is guarded by `filteredFiles.length < FILES_TO_SHOW`. -/
theorem processFiles_length (o : Oracle) (cfg : Config) (mt imdb : String)
    (se ep : Option String) (tt tsrc : String) :
    ∀ (files : List VideoFile) (acc : List StreamEntry) (st : RunState)
      (l : List StreamEntry) (st' : RunState),
      processFiles o cfg mt imdb se ep tt tsrc files acc st = (.ok l, st') →
      l.length ≤ max acc.length cfg.FILES_TO_SHOW := by
  intro files
  induction files with
  | nil =>
    intro acc st l st' h
    simp only [processFiles, Prod.mk.injEq, Except.ok.injEq] at h
    rw [← h.1]
    omega
  | cons f rest ih =>
    intro acc st l st' h
    simp only [processFiles] at h
    split at h
    · -- series branch
      split at h
      · exact ih _ _ _ _ h
      · split at h
        · exact absurd h (by simp)
        · split at h
          · refine le_trans (ih _ _ _ _ h) ?_
            refine max_push_le acc _ cfg.FILES_TO_SHOW _
              (fun hc => by
                simp only [Bool.and_eq_true, decide_eq_true_eq] at hc
                exact hc.2)
          · split at h
            · exact ih _ _ _ _ h
            · split at h
              · exact absurd h (by simp)
              · refine le_trans (ih _ _ _ _ h) ?_
                refine max_push_le acc _ cfg.FILES_TO_SHOW _
                  (fun hc => by
                    simp only [Bool.and_eq_true, decide_eq_true_eq] at hc
                    exact hc.2)
    · split at h
      · -- movie branch
        split at h
        · exact absurd h (by simp)
        · split at h
          · refine le_trans (ih _ _ _ _ h) ?_
            refine max_push_le acc _ cfg.FILES_TO_SHOW _ (fun hc => hc)
          · split at h
            · exact ih _ _ _ _ h
            · split at h
              · exact absurd h (by simp)
              · refine le_trans (ih _ _ _ _ h) ?_
                exact max_push_le acc _ cfg.FILES_TO_SHOW _ (fun hc => hc)
      · exact ih _ _ _ _ h

/-- The torrent loop never flips the db failure flags either. -/
theorem unlockAndAddStreams_flags (o : Oracle) (cfg : Config) (mt imdb : String)
    (se ep : Option String) (tt : String) :
    ∀ (ts : List UploadStatus) (streams : List StreamEntry) (st : RunState)
      (r : Except JsError (List StreamEntry)) (st' : RunState),
      unlockAndAddStreams o cfg mt imdb se ep tt ts streams st = (r, st') →
      st'.store.readFail = st.store.readFail ∧
        st'.store.writeFail = st.store.writeFail := by
  intro ts
  induction ts with
  | nil =>
    intro streams st r st' h
    simp only [unlockAndAddStreams, Prod.mk.injEq] at h
    rw [← h.2]
    exact ⟨rfl, rfl⟩
  | cons t rest ih =>
    intro streams st r st' h
    simp only [unlockAndAddStreams] at h
    split at h
    · simp only [Prod.mk.injEq] at h
      rw [← h.2]
      exact ⟨rfl, rfl⟩
    · split at h
      · rename_i st2 hpf
        simp only [Prod.mk.injEq] at h
        have hf := processFiles_flags o cfg mt imdb se ep tt t.source _ _ _ _ _ hpf
        rw [← h.2]
        simpa [bumpFileList] using hf
      · rename_i streams2 st2 hpf
        have hf := processFiles_flags o cfg mt imdb se ep tt t.source _ _ _ _ _ hpf
        have hr := ih _ _ _ _ h
        simp only [bumpFileList] at hf
        exact ⟨hr.1.trans hf.1, hr.2.trans hf.2⟩

/-- The global cap of the torrent loop: a final `ok` output is at most
`max streams.length (2 * FILES_TO_SHOW - 1)` long, since the loop only
enters a torrent while below `FILES_TO_SHOW` and that torrent can add at
most `FILES_TO_SHOW` more. -/
theorem unlockAndAddStreams_length (o : Oracle) (cfg : Config) (mt imdb : String)
    (se ep : Option String) (tt : String) :
    ∀ (ts : List UploadStatus) (streams : List StreamEntry) (st : RunState)
      (l : List StreamEntry) (st' : RunState),
      unlockAndAddStreams o cfg mt imdb se ep tt ts streams st = (.ok l, st') →
      l.length ≤ max streams.length (2 * cfg.FILES_TO_SHOW - 1) := by
  intro ts
  induction ts with
  | nil =>
    intro streams st l st' h
    simp only [unlockAndAddStreams, Prod.mk.injEq, Except.ok.injEq] at h
    rw [← h.1]
    omega
  | cons t rest ih =>
    intro streams st l st' h
    simp only [unlockAndAddStreams] at h
    split at h
    · rename_i hbreak
      simp only [Prod.mk.injEq, Except.ok.injEq] at h
      rw [← h.1]
      omega
    · rename_i hbreak
      split at h
      · exact absurd h (by simp)
      · rename_i ff st2 hpf
        have hff : ff.length ≤ cfg.FILES_TO_SHOW := by
          have := processFiles_length o cfg mt imdb se ep tt t.source _ _ _ _ _ hpf
          simpa using this
        have hrec := ih _ _ _ _ h
        have hlt : streams.length < cfg.FILES_TO_SHOW := by omega
        simp only [List.length_append] at hrec
        omega

/-- From a fresh state with a well-parsed configuration, the handler always
proceeds past the (necessarily missing) initial cache check. -/
theorem handleStream_initState (o : Oracle) (req : Request) (cfg : Config)
    (hcfg : req.config = some cfg) :
    handleStream o req initState = afterCacheMiss o req cfg initState := by
  simp only [handleStream, hcfg]
  rfl

/-! ## Claim C1 - output cap -/

/-- Adapter responses exhibiting the cap overshoot: two ready complete-
series torrents, the first carrying one matching video file and the second
two, every unlock succeeding. -/
def c1Oracle : Oracle where
  tmdb := some ⟨"T", "series", none⟩
  yggResults := ⟨[], [⟨"1", "T S01", some "hA", some "Ygg"⟩,
    ⟨"2", "T S01 b", some "hB", some "Ygg"⟩], [], []⟩
  sharewoodResults := ⟨[], [], [], []⟩
  hashFromYgg := fun _ => none
  uploadMagnets := fun ms => ms.map fun m => ⟨m.hash, m.hash, m.title, m.source, "✅ Ready"⟩
  filesFromMagnetId := fun id _ =>
    if id == "hA" then [⟨"a.s01e02.mkv", "la", 1⟩]
    else [⟨"b.s01e02.mkv", "lb", 1⟩, ⟨"c.s01e02.mkv", "lc", 1⟩]
  unlockFileLink := fun l => some ("u" ++ l)
  parseFileName := fun _ => ⟨"r", "c", "s"⟩
  formatSize := fun _ => "1B"

/-- The single stream entry all three output slots end up holding. -/
def c1Entry : StreamEntry :=
  ⟨"❤️ Ygg + AD | 🖥️ r | 🎞️ c", "T\na.s01e02.mkv\n🎬 s | 💾 1B", "ula"⟩

/-- C1 counterexample: with `FILES_TO_SHOW = 2` and the responses above,
the handler returns three StreamEntry values - the break check runs only
between torrents, so a torrent entered with one slot free can still add up
to `FILES_TO_SHOW` entries of its own. -/
theorem C1_counterexample :
    (handleStream c1Oracle ⟨"series", "tt1:1:2", some ⟨2⟩⟩ initState).1 =
      .ok [c1Entry, c1Entry, c1Entry] ∧ ¬([c1Entry, c1Entry, c1Entry].length ≤ 2) := by
  exact ⟨rfl, by decide⟩

/-- C1 (amended): from a fresh state, any stream list the handler returns
has at most `2 * FILES_TO_SHOW - 1` entries: the loop enters a torrent
only while below `FILES_TO_SHOW` and each torrent appends at most
`FILES_TO_SHOW` entries. -/
theorem C1_stream_cap_amended (o : Oracle) (req : Request) (cfg : Config)
    (l : List StreamEntry) (st' : RunState)
    (hcfg : req.config = some cfg)
    (h : handleStream o req initState = (.ok l, st')) :
    l.length ≤ 2 * cfg.FILES_TO_SHOW - 1 := by
  rw [handleStream_initState o req cfg hcfg] at h
  simp only [afterCacheMiss] at h
  split at h
  · simp only [Prod.mk.injEq, HandlerResult.ok.injEq] at h
    rw [← h.1]
    simp
  · simp only [afterSearch] at h
    split at h
    · simp only [Prod.mk.injEq, HandlerResult.ok.injEq] at h
      rw [← h.1]
      simp
    · split at h
      · exact absurd h (by simp)
      · split at h
        · simp only [Prod.mk.injEq, HandlerResult.ok.injEq] at h
          rw [← h.1]
          simp
        · simp only [afterMagnets] at h
          split at h
          · exact absurd h (by simp)
          · rename_i streams st2 hu
            split at h
            · rename_i hemp
              simp only [Prod.mk.injEq, HandlerResult.ok.injEq] at h
              rw [← h.1, List.isEmpty_iff.mp hemp]
              simp
            · split at h
              · exact absurd h (by simp)
              · simp only [Prod.mk.injEq, HandlerResult.ok.injEq] at h
                have := unlockAndAddStreams_length o cfg req.mediaType
                  (reqImdb req.id) (reqSeason req.id) (reqEpisode req.id) _ _ _ _ _ _ hu
                rw [← h.1]
                simpa using this

/-- C1 witness: the counterexample run meets the amended bound exactly
(3 = 2 * 2 - 1 entries). -/
theorem C1_witness : ([c1Entry, c1Entry, c1Entry] : List StreamEntry).length ≤ 2 * 2 - 1 :=
  C1_stream_cap_amended c1Oracle ⟨"series", "tt1:1:2", some ⟨2⟩⟩ ⟨2⟩
    [c1Entry, c1Entry, c1Entry]
    ⟨⟨[⟨"tt1", some "01", some "02", .json [c1Entry]⟩,
       ⟨"tt1", some "1", some "2", .json [c1Entry, c1Entry, c1Entry]⟩], false, false⟩,
      ⟨1, 2, 0, 1, 2, 1⟩, [("tt1", some "01", some "02")]⟩ rfl rfl

/-! ## Claim C8 - terminal short-circuits -/

/-- C8: from a fresh state, each terminal condition immediately yields
`ok []` with no further external calls: a failed catalog lookup stops
before any search (calls = 1 tmdb only); four empty merged buckets stop
before hash resolution and upload; an empty magnet list stops before
upload and unlock; an upload batch with no ready torrent ends with no
file-list or unlock call and no cache write. -/
theorem C8_short_circuits (o : Oracle) (req : Request) (cfg : Config)
    (hcfg : req.config = some cfg) :
    (o.tmdb = none →
      handleStream o req initState =
        (.ok [], ⟨⟨[], false, false⟩, ⟨1, 0, 0, 0, 0, 0⟩, []⟩)) ∧
    (∀ td, o.tmdb = some td →
      allEmptyB (combineResults o.yggResults o.sharewoodResults) = true →
      handleStream o req initState =
        (.ok [], ⟨⟨[], false, false⟩, ⟨1, 2, 0, 0, 0, 0⟩, []⟩)) ∧
    (∀ td lst qs, o.tmdb = some td →
      allEmptyB (combineResults o.yggResults o.sharewoodResults) = false →
      buildAllTorrents req.mediaType (reqSeason req.id) (reqEpisode req.id)
        (combineResults o.yggResults o.sharewoodResults) = .ok lst →
      resolveHashes o (lst.take (cfg.FILES_TO_SHOW * 2)) = ([], qs) →
      handleStream o req initState =
        (.ok [], ⟨⟨[], false, false⟩, ⟨1, 2, qs.length, 0, 0, 0⟩, []⟩)) ∧
    (∀ td lst m ms qs, o.tmdb = some td →
      allEmptyB (combineResults o.yggResults o.sharewoodResults) = false →
      buildAllTorrents req.mediaType (reqSeason req.id) (reqEpisode req.id)
        (combineResults o.yggResults o.sharewoodResults) = .ok lst →
      resolveHashes o (lst.take (cfg.FILES_TO_SHOW * 2)) = (m :: ms, qs) →
      (o.uploadMagnets (m :: ms)).filter (fun u => u.ready == "✅ Ready") = [] →
      handleStream o req initState =
        (.ok [], ⟨⟨[], false, false⟩, ⟨1, 2, qs.length, 1, 0, 0⟩, []⟩)) := by
  refine ⟨fun h1 => ?_, fun td h1 h2 => ?_, fun td lst qs h1 h2 h3 h4 => ?_,
    fun td lst m ms qs h1 h2 h3 h4 h5 => ?_⟩
  · rw [handleStream_initState o req cfg hcfg]
    simp only [afterCacheMiss, h1]
    rfl
  · rw [handleStream_initState o req cfg hcfg]
    simp only [afterCacheMiss, h1, afterSearch, h2, if_true]
    rfl
  · rw [handleStream_initState o req cfg hcfg]
    simp only [afterCacheMiss, h1, afterSearch, h2, Bool.false_eq_true, if_false, h3, h4]
    simp [bumpTmdb, bumpSearch, bumpHash, initState, emptyStore, Calls.zero]
  · rw [handleStream_initState o req cfg hcfg]
    simp only [afterCacheMiss, h1, afterSearch, h2, Bool.false_eq_true, if_false, h3, h4,
      List.isEmpty_cons, afterMagnets, h5, unlockAndAddStreams, List.isEmpty_nil]
    simp [bumpTmdb, bumpSearch, bumpHash, bumpUpload, initState, emptyStore, Calls.zero]

/-- Sources for the C8 witness scenarios: no catalog entry at all. -/
def c8NoCatalog : Oracle where
  tmdb := none
  yggResults := ⟨[], [], [], []⟩
  sharewoodResults := ⟨[], [], [], []⟩
  hashFromYgg := fun _ => none
  uploadMagnets := fun _ => []
  filesFromMagnetId := fun _ _ => []
  unlockFileLink := fun _ => none
  parseFileName := fun _ => ⟨"", "", ""⟩
  formatSize := fun _ => ""

/-- Sources for the C8 witness scenarios: catalog found, empty buckets. -/
def c8Empty : Oracle :=
  { c8NoCatalog with tmdb := some ⟨"T", "movie", none⟩ }

/-- Sources for the C8 witness scenarios: one movie torrent without a hash
and a hash adapter that fails, so hash resolution drops everything. -/
def c8NoHash : Oracle :=
  { c8Empty with yggResults := ⟨[⟨"9", "T", none, some "Ygg"⟩], [], [], []⟩ }

/-- Sources for the C8 witness scenarios: one hashed movie torrent whose
upload never reaches the ready state. -/
def c8NotReady : Oracle :=
  { c8Empty with
    yggResults := ⟨[⟨"9", "T", some "h9", some "Ygg"⟩], [], [], []⟩
    uploadMagnets := fun ms => ms.map fun mg => ⟨mg.hash, mg.hash, mg.title, mg.source, "❌"⟩ }

/-- C8 witness: the four short-circuits at concrete adapter responses. -/
theorem C8_witness :
    handleStream c8NoCatalog ⟨"movie", "tt1", some ⟨2⟩⟩ initState =
      (.ok [], ⟨⟨[], false, false⟩, ⟨1, 0, 0, 0, 0, 0⟩, []⟩) ∧
    handleStream c8Empty ⟨"movie", "tt1", some ⟨2⟩⟩ initState =
      (.ok [], ⟨⟨[], false, false⟩, ⟨1, 2, 0, 0, 0, 0⟩, []⟩) ∧
    handleStream c8NoHash ⟨"movie", "tt1", some ⟨2⟩⟩ initState =
      (.ok [], ⟨⟨[], false, false⟩, ⟨1, 2, 1, 0, 0, 0⟩, []⟩) ∧
    handleStream c8NotReady ⟨"movie", "tt1", some ⟨2⟩⟩ initState =
      (.ok [], ⟨⟨[], false, false⟩, ⟨1, 2, 0, 1, 0, 0⟩, []⟩) := by
  refine ⟨(C8_short_circuits c8NoCatalog _ ⟨2⟩ rfl).1 rfl,
    (C8_short_circuits c8Empty _ ⟨2⟩ rfl).2.1 ⟨"T", "movie", none⟩ rfl (by decide),
    ?_, ?_⟩
  · have := (C8_short_circuits c8NoHash ⟨"movie", "tt1", some ⟨2⟩⟩ ⟨2⟩ rfl).2.2.1
      ⟨"T", "movie", none⟩ [⟨"9", "T", none, some "Ygg"⟩] ["9"] rfl (by decide) rfl rfl
    simpa using this
  · have := (C8_short_circuits c8NotReady ⟨"movie", "tt1", some ⟨2⟩⟩ ⟨2⟩ rfl).2.2.2
      ⟨"T", "movie", none⟩ [⟨"9", "T", some "h9", some "Ygg"⟩] ⟨"h9", "T", "Ygg"⟩ [] []
      rfl (by decide) rfl rfl rfl
    simpa using this

/-! ## Claim C10 - padded per-file keys vs raw request keys -/

/-- Is a cache key of the shape the per-file writes use: both season and
episode present and exactly two digits? -/
def keyTwoDigitB : String × Option String × Option String → Bool
  | (_, some a, some b) => twoDigitB a && twoDigitB b
  | _ => false

/-- Row version of `keyTwoDigitB`. -/
def rowKeyTwoDigitB (r : Row) : Bool :=
  match r.season, r.episode with
  | some a, some b => twoDigitB a && twoDigitB b
  | _, _ => false

/-- A successful anchored attempt captures two two-digit strings. -/
theorem tryMatchAt_captures (cs : List Char) (a b : String)
    (h : tryMatchAt cs = some (a, b)) :
    twoDigitB a = true ∧ twoDigitB b = true := by
  unfold tryMatchAt at h
  split at h
  · split at h
    · rename_i hcond
      simp only [Bool.and_eq_true] at hcond
      simp only [Option.some.injEq, Prod.mk.injEq] at h
      rw [← h.1, ← h.2]
      refine ⟨?_, ?_⟩ <;> simp [twoDigitB, String.length] <;>
        simp [hcond.1.1.1.1.2, hcond.1.1.1.2, hcond.1.2, hcond.2]
    · exact absurd h (by simp)
  · exact absurd h (by simp)

/-- A successful regex match captures two two-digit strings. -/
theorem matchEpisodeRegex_captures (cs : List Char) (a b : String)
    (h : matchEpisodeRegex cs = some (a, b)) :
    twoDigitB a = true ∧ twoDigitB b = true := by
  induction cs with
  | nil => exact absurd h (by simp [matchEpisodeRegex])
  | cons c rest ih =>
    simp only [matchEpisodeRegex] at h
    split at h
    · rename_i r hr
      simp only [Option.some.injEq] at h
      rw [h] at hr
      exact tryMatchAt_captures _ a b hr
    · exact ih h

/-- In series mode the per-file loop only records two-digit detected keys
(captured from the filename regex). -/
theorem processFiles_keys (o : Oracle) (cfg : Config) (mt imdb : String)
    (se ep : Option String) (tt tsrc : String) (hmt : mt = "series") :
    ∀ (files : List VideoFile) (acc : List StreamEntry) (st : RunState)
      (r : Except JsError (List StreamEntry)) (st' : RunState),
      processFiles o cfg mt imdb se ep tt tsrc files acc st = (r, st') →
      st.perFileKeys.all keyTwoDigitB = true →
      st'.perFileKeys.all keyTwoDigitB = true := by
  subst hmt
  intro files
  induction files with
  | nil =>
    intro acc st r st' h hk
    simp only [processFiles, Prod.mk.injEq] at h
    rw [← h.2]
    exact hk
  | cons f rest ih =>
    intro acc st r st' h hk
    simp only [processFiles] at h
    split at h
    · split at h
      · exact ih _ _ _ _ h hk
      · rename_i pr hm
        split at h
        · simp only [Prod.mk.injEq] at h
          rw [← h.2]
          exact hk
        · split at h
          · exact ih _ _ _ _ h hk
          · split at h
            · exact ih _ _ _ _ h (by simpa [bumpUnlock] using hk)
            · split at h
              · simp only [Prod.mk.injEq] at h
                rw [← h.2]
                simpa [bumpUnlock] using hk
              · refine ih _ _ _ _ h ?_
                obtain ⟨hda, hdb⟩ := matchEpisodeRegex_captures _ _ _ hm
                simp [bumpUnlock, List.all_append, keyTwoDigitB, hda, hdb, hk]
    · split at h
      · rename_i hser hmov
        simp at hser
      · exact ih _ _ _ _ h hk

/-- The torrent loop preserves the two-digit shape of every recorded
per-file key (series mode). -/
theorem unlockAndAddStreams_keys (o : Oracle) (cfg : Config) (mt imdb : String)
    (se ep : Option String) (tt : String) (hmt : mt = "series") :
    ∀ (ts : List UploadStatus) (streams : List StreamEntry) (st : RunState)
      (r : Except JsError (List StreamEntry)) (st' : RunState),
      unlockAndAddStreams o cfg mt imdb se ep tt ts streams st = (r, st') →
      st.perFileKeys.all keyTwoDigitB = true →
      st'.perFileKeys.all keyTwoDigitB = true := by
  intro ts
  induction ts with
  | nil =>
    intro streams st r st' h hk
    simp only [unlockAndAddStreams, Prod.mk.injEq] at h
    rw [← h.2]
    exact hk
  | cons t rest ih =>
    intro streams st r st' h hk
    simp only [unlockAndAddStreams] at h
    split at h
    · simp only [Prod.mk.injEq] at h
      rw [← h.2]
      exact hk
    · split at h
      · rename_i st2 hpf
        simp only [Prod.mk.injEq] at h
        rw [← h.2]
        exact processFiles_keys o cfg mt imdb se ep tt t.source hmt _ _ _ _ _ hpf
          (by simpa [bumpFileList] using hk)
      · rename_i streams2 st2 hpf
        exact ih _ _ _ _ h
          (processFiles_keys o cfg mt imdb se ep tt t.source hmt _ _ _ _ _ hpf
            (by simpa [bumpFileList] using hk))

/-- Is a query-key component a present two-digit string? -/
def optTwoDigitB : Option String → Bool
  | some x => twoDigitB x
  | none => false

/-- C10: (a) in series mode every key recorded by a per-file cache write
has a two-digit season and episode (the regex captures), while the
request-level initial check and final batch write use the raw id
segments; (b) a key whose season or episode component is not a two-digit
string is therefore distinct from every per-file key; and (c) on any
store - in particular the mixed store a run leaves behind, holding both
padded per-file rows and the raw-key batch row - a lookup whose season or
episode component is not a two-digit string only ever finds a row whose
key is not two-digit, hence never an entry produced by a per-file
write. -/
theorem C10_per_file_keys (o : Oracle) (req : Request) (st : RunState) :
    (req.mediaType = "series" → st.perFileKeys = [] →
      (handleStream o req st).2.perFileKeys.all keyTwoDigitB = true) ∧
    (∀ imdb : String, ∀ se ep : Option String, ∀ ds de : String,
      optTwoDigitB se = false ∨ optTwoDigitB ep = false →
      twoDigitB ds = true → twoDigitB de = true →
      (imdb, se, ep) ≠ (imdb, some ds, some de)) ∧
    (∀ stb : Store, ∀ imdb : String, ∀ se ep : Option String, ∀ r : Row,
      optTwoDigitB se = false ∨ optTwoDigitB ep = false →
      stb.rows.find? (rowMatches imdb se ep) = some r →
      rowKeyTwoDigitB r = false) := by
  refine ⟨?_, ?_, ?_⟩
  · intro hmt hkeys
    rcases hp : handleStream o req st with ⟨res, st'⟩
    simp only
    have hk0 : st.perFileKeys.all keyTwoDigitB = true := by simp [hkeys]
    simp only [handleStream] at hp
    split at hp
    · simp only [Prod.mk.injEq] at hp
      rw [← hp.2]
      exact hk0
    · split at hp
      · simp only [Prod.mk.injEq] at hp
        rw [← hp.2]
        exact hk0
      · simp only [Prod.mk.injEq] at hp
        rw [← hp.2]
        exact hk0
      · simp only [afterCacheMiss] at hp
        split at hp
        · simp only [Prod.mk.injEq] at hp
          rw [← hp.2]
          simpa [bumpTmdb] using hk0
        · simp only [afterSearch] at hp
          split at hp
          · simp only [Prod.mk.injEq] at hp
            rw [← hp.2]
            simpa [bumpSearch, bumpTmdb] using hk0
          · split at hp
            · simp only [Prod.mk.injEq] at hp
              rw [← hp.2]
              simpa [bumpSearch, bumpTmdb] using hk0
            · split at hp
              · simp only [Prod.mk.injEq] at hp
                rw [← hp.2]
                simpa [bumpHash, bumpSearch, bumpTmdb] using hk0
              · simp only [afterMagnets] at hp
                split at hp
                · rename_i st2 hu
                  simp only [Prod.mk.injEq] at hp
                  rw [← hp.2]
                  exact unlockAndAddStreams_keys o _ _ _ _ _ _ hmt _ _ _ _ _ hu
                    (by simpa [bumpUpload, bumpHash, bumpSearch, bumpTmdb] using hk0)
                · rename_i streams st2 hu
                  have hst2 : st2.perFileKeys.all keyTwoDigitB = true :=
                    unlockAndAddStreams_keys o _ _ _ _ _ _ hmt _ _ _ _ _ hu
                      (by simpa [bumpUpload, bumpHash, bumpSearch, bumpTmdb] using hk0)
                  split at hp
                  · simp only [Prod.mk.injEq] at hp
                    rw [← hp.2]
                    exact hst2
                  · split at hp
                    · simp only [Prod.mk.injEq] at hp
                      rw [← hp.2]
                      exact hst2
                    · simp only [Prod.mk.injEq] at hp
                      rw [← hp.2]
                      exact hst2
  · intro imdb se ep ds de hdis hds hde heq
    simp only [Prod.mk.injEq] at heq
    obtain ⟨-, hse, hep⟩ := heq
    rcases hdis with hdis | hdis
    · rw [hse] at hdis
      simp [optTwoDigitB, hds] at hdis
    · rw [hep] at hdis
      simp [optTwoDigitB, hde] at hdis
  · intro stb imdb se ep r hdis hfind
    have hmatch := List.find?_some hfind
    simp only [rowMatches, Bool.and_eq_true] at hmatch
    obtain ⟨⟨him, hsea⟩, hepi⟩ := hmatch
    by_contra hcon
    simp only [Bool.not_eq_false] at hcon
    rcases hrs : r.season with _ | a
    · simp [rowKeyTwoDigitB, hrs] at hcon
    · rcases hre : r.episode with _ | b
      · simp [rowKeyTwoDigitB, hrs, hre] at hcon
      · rw [hrs] at hsea
        rw [hre] at hepi
        simp only [rowKeyTwoDigitB, hrs, hre, Bool.and_eq_true] at hcon
        rcases se with _ | s2
        · simp [sqlEq] at hsea
        · rcases ep with _ | e2
          · simp [sqlEq] at hepi
          · simp only [sqlEq, beq_iff_eq] at hsea hepi
            subst hsea
            subst hepi
            rcases hdis with hdis | hdis
            · simp [optTwoDigitB, hcon.1] at hdis
            · simp [optTwoDigitB, hcon.2] at hdis

/-- C10 witness: the claim-C1 series run records only the padded key
`("tt1", "01", "02")`; the raw key of id `tt1:1:2` and a key with the
unpadded episode `"3"` each differ from the corresponding padded key; and
on the mixed store that run leaves behind (padded per-file row plus
raw-key batch row), the unpadded lookup finds exactly the raw-key batch
row, which is not two-digit keyed. -/
theorem C10_witness :
    (handleStream c1Oracle ⟨"series", "tt1:1:2", some ⟨2⟩⟩ initState).2.perFileKeys.all
      keyTwoDigitB = true ∧
    ((("tt1" : String), (some "1" : Option String), (some "2" : Option String)) ≠
      ("tt1", some "01", some "02")) ∧
    ((("tt1" : String), (some "01" : Option String), (some "3" : Option String)) ≠
      ("tt1", some "01", some "03")) ∧
    rowKeyTwoDigitB ⟨"tt1", some "1", some "2", .json [c1Entry, c1Entry, c1Entry]⟩ = false :=
  ⟨(C10_per_file_keys c1Oracle ⟨"series", "tt1:1:2", some ⟨2⟩⟩ initState).1 rfl rfl,
    (C10_per_file_keys c1Oracle ⟨"series", "tt1:1:2", some ⟨2⟩⟩ initState).2.1
      "tt1" (some "1") (some "2") "01" "02" (Or.inl rfl) rfl rfl,
    (C10_per_file_keys c1Oracle ⟨"series", "tt1:1:2", some ⟨2⟩⟩ initState).2.1
      "tt1" (some "01") (some "3") "01" "03" (Or.inr rfl) rfl rfl,
    (C10_per_file_keys c1Oracle ⟨"series", "tt1:1:2", some ⟨2⟩⟩ initState).2.2
      ⟨[⟨"tt1", some "01", some "02", .json [c1Entry]⟩,
        ⟨"tt1", some "1", some "2", .json [c1Entry, c1Entry, c1Entry]⟩], false, false⟩
      "tt1" (some "1") (some "2")
      ⟨"tt1", some "1", some "2", .json [c1Entry, c1Entry, c1Entry]⟩ (Or.inl rfl) rfl⟩

/-! ## Claim C2 - idempotence of repeated identical requests -/

/-- C2 (amended): when the request id parses to a non-null season and
episode and the first call (from a fresh state) returns a non-empty
stream list, a second identical call against the resulting database is
served entirely by the initial cache check: it returns the identical list,
leaves the state untouched and performs zero adapter calls. -/
theorem C2_idempotent_amended (o : Oracle) (req : Request) (cfg : Config) (s e : String)
    (l : List StreamEntry) (st1 : RunState)
    (hcfg : req.config = some cfg)
    (hs : reqSeason req.id = some s)
    (he : reqEpisode req.id = some e)
    (h1 : handleStream o req initState = (.ok l, st1))
    (hne : l ≠ []) :
    handleStream o req ⟨st1.store, Calls.zero, []⟩ =
      (.ok l, ⟨st1.store, Calls.zero, []⟩) := by
  have hget : getCachedStream st1.store (reqImdb req.id) (some s) (some e) =
      .ok (some l) := by
    rw [handleStream_initState o req cfg hcfg] at h1
    simp only [afterCacheMiss] at h1
    split at h1
    · simp only [Prod.mk.injEq, HandlerResult.ok.injEq] at h1
      exact absurd (h1.1.symm) hne
    · simp only [afterSearch] at h1
      split at h1
      · simp only [Prod.mk.injEq, HandlerResult.ok.injEq] at h1
        exact absurd (h1.1.symm) hne
      · split at h1
        · exact absurd h1 (by simp)
        · split at h1
          · simp only [Prod.mk.injEq, HandlerResult.ok.injEq] at h1
            exact absurd (h1.1.symm) hne
          · simp only [afterMagnets] at h1
            split at h1
            · exact absurd h1 (by simp)
            · rename_i streams st2 hu
              split at h1
              · rename_i hemp
                simp only [Prod.mk.injEq, HandlerResult.ok.injEq] at h1
                rw [← h1.1] at hne
                exact absurd (List.isEmpty_iff.mp hemp) hne
              · split at h1
                · exact absurd h1 (by simp)
                · rename_i store2 hw
                  simp only [Prod.mk.injEq, HandlerResult.ok.injEq] at h1
                  have hflags := unlockAndAddStreams_flags o cfg req.mediaType
                    (reqImdb req.id) (reqSeason req.id) (reqEpisode req.id) _ _ _ _ _ _ hu
                  have hrf : st2.store.readFail = false := by
                    simpa [bumpUpload, bumpHash, bumpSearch, bumpTmdb, initState,
                      emptyStore] using hflags.1
                  rw [hs, he] at hw
                  have := getCachedStream_storeStream_same st2.store store2
                    (reqImdb req.id) s e streams hrf hw
                  have hst : st1.store = store2 := by
                    rw [← h1.2]
                  rw [hst, ← h1.1]
                  exact this
  simp only [handleStream, hcfg, hs, he, hget]

/-- Adapter responses for a movie request that resolves one stream. -/
def c2Oracle : Oracle where
  tmdb := some ⟨"M", "movie", none⟩
  yggResults := ⟨[⟨"7", "M", some "h7", some "Ygg"⟩], [], [], []⟩
  sharewoodResults := ⟨[], [], [], []⟩
  hashFromYgg := fun _ => none
  uploadMagnets := fun ms => ms.map fun m => ⟨m.hash, m.hash, m.title, m.source, "✅ Ready"⟩
  filesFromMagnetId := fun _ _ => [⟨"m.mkv", "lm", 1⟩]
  unlockFileLink := fun l => some ("u" ++ l)
  parseFileName := fun _ => ⟨"r", "c", "s"⟩
  formatSize := fun _ => "1B"

/-- The one stream the movie run resolves. -/
def c2Entry : StreamEntry :=
  ⟨"❤️ Ygg + AD | 🖥️ r | 🎞️ c", "M\nm.mkv\n🎬 s | 💾 1B", "ulm"⟩

/-- C2 counterexample: a movie request (null season/episode).  The first
call returns one stream and caches it under the NULL key; the second
identical call returns the identical stream list but is NOT served from
cache - its initial lookup misses (`season = NULL` never matches) and it
performs the catalog call again (tmdb counter 1, not 0), refuting the
claimed no-adapter-calls property. -/
theorem C2_counterexample :
    (handleStream c2Oracle ⟨"movie", "tt2", some ⟨2⟩⟩ initState).1 = .ok [c2Entry] ∧
    (handleStream c2Oracle ⟨"movie", "tt2", some ⟨2⟩⟩
      ⟨(handleStream c2Oracle ⟨"movie", "tt2", some ⟨2⟩⟩ initState).2.store,
        Calls.zero, []⟩).1 = .ok [c2Entry] ∧
    (handleStream c2Oracle ⟨"movie", "tt2", some ⟨2⟩⟩
      ⟨(handleStream c2Oracle ⟨"movie", "tt2", some ⟨2⟩⟩ initState).2.store,
        Calls.zero, []⟩).2.calls.tmdbCalls = 1 := by
  exact ⟨rfl, rfl, rfl⟩

/-- C2 witness: the series run of `c1Oracle` (id `tt1:1:2`, non-empty
result) is answered on the second call straight from the cache with zero
adapter calls. -/
theorem C2_witness :
    handleStream c1Oracle ⟨"series", "tt1:1:2", some ⟨2⟩⟩
      ⟨⟨[⟨"tt1", some "01", some "02", .json [c1Entry]⟩,
         ⟨"tt1", some "1", some "2", .json [c1Entry, c1Entry, c1Entry]⟩],
        false, false⟩, Calls.zero, []⟩ =
      (.ok [c1Entry, c1Entry, c1Entry],
        ⟨⟨[⟨"tt1", some "01", some "02", .json [c1Entry]⟩,
           ⟨"tt1", some "1", some "2", .json [c1Entry, c1Entry, c1Entry]⟩],
          false, false⟩, Calls.zero, []⟩) :=
  C2_idempotent_amended c1Oracle ⟨"series", "tt1:1:2", some ⟨2⟩⟩ ⟨2⟩ "1" "2"
    [c1Entry, c1Entry, c1Entry]
    ⟨⟨[⟨"tt1", some "01", some "02", .json [c1Entry]⟩,
       ⟨"tt1", some "1", some "2", .json [c1Entry, c1Entry, c1Entry]⟩], false, false⟩,
      ⟨1, 2, 0, 1, 2, 1⟩, [("tt1", some "01", some "02")]⟩
    rfl rfl rfl rfl (by simp)
